import Mathlib

/-!
Verification of the snipit source-discovery pipeline
(`supabase/functions/search-sources/index.ts`, two variants).

The TypeScript is shallowly embedded: every external effect (HTTP fetch,
the Firecrawl scraper, the OpenAI oracle, the JS `Date` parser, the regex
HTML extraction) is a field of an environment record, and each function of
the source becomes a total Lean function of that environment.  JS string
falsiness (`s || t`) is `jsOr`, JS `String.prototype.includes` is
`jsIncludes`, JS `[...new Set(xs)]` is `dedupFirst`, and the float
comparison `x.length > y.length * 0.5` is rendered exactly over integers
as `y.length < 2 * x.length`.
-/

namespace Snipit

/-- JS `a || b` on strings: the empty string is falsy. -/
def jsOr (a b : String) : String := if a = "" then b else a

/-- JS word character (regex `\w`): ASCII alphanumeric or underscore. -/
def isWordChar (c : Char) : Bool := c.isAlphanum || c = '_'

/-- JS whitespace (regex `\s`), restricted to the characters Lean's
`Char.isWhitespace` recognises. -/
def isWhite (c : Char) : Bool := c.isWhitespace

/-- Model of JS `String.prototype.toLowerCase` (character-wise). -/
def lowerStr (s : String) : String := String.mk (s.data.map Char.toLower)

/-- Does `needle` occur at the start of `haystack`? -/
def startRun : List Char → List Char → Bool
  | [], _ => true
  | _ :: _, [] => false
  | a :: as, b :: bs => a == b && startRun as bs

/-- Does `needle` occur contiguously inside `haystack`? -/
def containsSeq (needle : List Char) : List Char → Bool
  | [] => needle.isEmpty
  | c :: cs => startRun needle (c :: cs) || containsSeq needle cs

/-- JS `s.includes(sub)`. -/
def jsIncludes (s sub : String) : Bool := containsSeq sub.data s.data

/-- One step of JS `Set` insertion (first occurrence wins). -/
def insertUnique (seen : List String) (x : String) : List String :=
  if x ∈ seen then seen else seen ++ [x]

/-- JS `[...new Set(xs)]`: drop duplicates, keeping first-seen order. -/
def dedupFirst (l : List String) : List String := l.foldl insertUnique []

/-- Splitting a character list at separators (`p` true), like JS
`String.prototype.split` on a single-character class: empty chunks are
produced between adjacent separators. -/
def splitAux (p : Char → Bool) : List Char → List Char → List (List Char)
  | [], acc => [acc.reverse]
  | c :: cs, acc =>
    if p c then acc.reverse :: splitAux p cs []
    else splitAux p cs (c :: acc)

/-- Split `cs` at the characters satisfying `p`. -/
def splitChars (p : Char → Bool) (cs : List Char) : List (List Char) :=
  splitAux p cs []

/-- JS `Array.prototype.join(' ')`. -/
def joinSp : List String → String
  | [] => ""
  | [t] => t
  | t :: t2 :: ts => t ++ " " ++ joinSp (t2 :: ts)

/-- The template `"${term}"` used by search strategy 2. -/
def quoteTerm (t : String) : String := "\"" ++ t ++ "\""

/-- The stop-word set of `extractKeyTerms` (duplicates in the source
literal are harmless in a set and kept here verbatim). -/
def stopWords : List String :=
  ["the", "a", "an", "and", "or", "but", "in", "on", "at", "to", "for", "of", "with", "by",
   "is", "are", "was", "were", "be", "been", "being", "have", "has", "had", "do", "does", "did",
   "will", "would", "should", "could", "may", "might", "must", "can", "should", "would",
   "that", "this", "these", "those", "it", "its", "they", "them", "their", "we", "us", "our",
   "you", "your", "he", "him", "his", "she", "her", "hers", "i", "me", "my", "mine"]

/-- `extractKeyTerms` from the source: lowercase, replace every character
that is neither a word character nor whitespace by a space, split on
whitespace, keep words of length ≥ 3 that are not stop words, and drop
duplicates keeping first occurrences. -/
def extractKeyTerms (argument : String) : List String :=
  let replaced := (lowerStr argument).data.map
    (fun c => if isWordChar c || isWhite c then c else ' ')
  let words := ((splitChars isWhite replaced).map String.mk).filter
    (fun w => decide (3 ≤ w.length) && !(stopWords.contains w))
  dedupFirst words

/-- `createSearchQueries` from the source: the verbatim argument, then a
quoted-terms query, a keyword query and an academic-bias query, each
guarded by the number of key terms. -/
def createSearchQueries (argument : String) : List String :=
  let keyTerms := extractKeyTerms argument
  let queries := [argument]
  let queries := if 2 ≤ keyTerms.length then
      queries ++ [joinSp ((keyTerms.take 4).map quoteTerm)] else queries
  let queries := if 3 ≤ keyTerms.length then
      queries ++ [joinSp (keyTerms.take 4)] else queries
  let queries := if 2 ≤ keyTerms.length then
      queries ++ [joinSp (keyTerms.take 3) ++ " study research"] else queries
  queries

/-- `TransformedResult` of the source; absent optional fields are the
empty string, matching the JS falsiness conventions used on them. -/
structure TransformedResult where
  title : String
  url : String
  content : String
  author : String
  publishDate : String
  source : String
deriving DecidableEq

/-- Keyword-overlap relevance score: the number of key terms of the
argument occurring in the lowercased title or content.  This is both the
variant-1 sort key and the variant-2 fallback scorer (identical code). -/
def keywordScore (argument : String) (r : TransformedResult) : Nat :=
  ((extractKeyTerms argument).filter
    (fun t => jsIncludes (lowerStr r.title) t || jsIncludes (lowerStr r.content) t)).length

/-- The JSON object the recommendation oracle replies with; `none` fields
model absent JSON keys. -/
structure RecJson where
  recommendedIndex : Option Int
  reason : Option String
deriving DecidableEq

/-- Outcome of the OpenAI recommendation round-trip: HTTP `ok` flag plus
the `JSON.parse` of the reply (`none` = parse or shape failure). -/
structure RecResp where
  ok : Bool
  parsed : Option RecJson
deriving DecidableEq

/-- JS truthiness of a possibly-absent number (`0` is falsy). -/
def jsTruthyInt : Option Int → Bool
  | none => false
  | some n => n != 0

/-- JS truthiness of a possibly-absent string (`""` is falsy). -/
def jsTruthyOptStr : Option String → Bool
  | none => false
  | some s => s != ""

/-- `getOpenAIRecommendation` from the source (identical logic in both
variants).  `openAIApiKey` is the environment credential; `resp = none`
models a thrown fetch (caught by the outer `try`). -/
def getOpenAIRecommendation (articles : List TransformedResult)
    (openAIApiKey : Option String) (resp : Option RecResp) :
    Option (Int × String) :=
  match openAIApiKey with
  | none => none
  | some _ =>
    match resp with
    | none => none
    | some r =>
      if r.ok = false then none
      else
        match r.parsed with
        | none => none
        | some j =>
          if jsTruthyInt j.recommendedIndex && jsTruthyOptStr j.reason then
            let index : Int := j.recommendedIndex.getD 0 - 1
            if 0 ≤ index ∧ index < (articles.length : Int) then
              some (index, j.reason.getD "")
            else none
          else none

/-- The JSON body of the handler's response, with its HTTP status.
`none` models an absent JSON field (e.g. no `results` key in error
responses); `recommendedArticle = some none` is an explicit JSON `null`. -/
structure HandlerResponse where
  status : Nat
  results : Option (List TransformedResult)
  recommendedArticle : Option (Option (Int × String))
  error : Option String
deriving DecidableEq

/-! ## Variant 1: the multi-query NewsAPI pipeline -/

namespace V1

/-- A NewsAPI article; absent/null `description`, `content`, `url` or
`author` are the empty string (falsy, as the source tests them). -/
structure NewsAPIArticle where
  title : String
  description : String
  content : String
  url : String
  publishedAt : String
  author : String
  sourceName : String
deriving DecidableEq

/-- One NewsAPI round-trip: HTTP `ok` flag and the parsed article list. -/
structure NewsAPIHttp where
  ok : Bool
  articles : List NewsAPIArticle
deriving DecidableEq

/-- One Firecrawl round-trip: HTTP `ok`, the body's `success` flag and the
`data.text` / `data.content` payload fields. -/
structure FirecrawlHttp where
  ok : Bool
  success : Bool
  text : String
  content : String
deriving DecidableEq

/-- One direct `fetch(url)` of the manual scraping fallback. -/
structure DirectHttp where
  ok : Bool
  html : String
deriving DecidableEq

/-- The external world of variant 1.  Each field models one collaborator;
a `none` result of a fetch field models a thrown/rejected promise.
`extractArticleContent` is the variant-1 regex HTML text heuristic,
modelled as an uninterpreted total function of the fetched HTML;
`jsDateYear` is the JS `Date` parser, returning the `getFullYear` of a
parsable date string and `none` for an invalid date. -/
structure Env where
  newsApiKey : Option String
  firecrawlApiKey : Option String
  newsFetch : String → Option NewsAPIHttp
  firecrawlResp : String → Option FirecrawlHttp
  directResp : String → Option DirectHttp
  extractArticleContent : String → String
  jsDateYear : String → Option Int

/-- `scrapeWithFirecrawl` of variant 1: empty string on any failure
(missing key, thrown fetch, HTTP error, unsuccessful payload), else
`data.text || data.content || ''`. -/
def scrapeWithFirecrawl (env : Env) (url : String) : String :=
  match env.firecrawlApiKey with
  | none => ""
  | some _ =>
    match env.firecrawlResp url with
    | none => ""
    | some r =>
      if r.ok = false then ""
      else if r.success = false then ""
      else jsOr r.text r.content

/-- `scrapeArticleContent` of variant 1: direct fetch with the regex
extraction heuristic, empty string on failure. -/
def scrapeArticleContent (env : Env) (url : String) : String :=
  match env.directResp url with
  | none => ""
  | some r => if r.ok = false then "" else env.extractArticleContent r.html

/-- The content seed of a hit:
`article.description || article.content || 'No content available'`. -/
def seedContent (a : NewsAPIArticle) : String :=
  jsOr (jsOr a.description a.content) "No content available"

/-- The scraped candidate: Firecrawl first, manual scraping if Firecrawl
came back falsy (`let scraped = …; if (!scraped) scraped = …`). -/
def scrapedFor (env : Env) (url : String) : String :=
  jsOr (scrapeWithFirecrawl env url) (scrapeArticleContent env url)

/-- The JS `scraped.length > seed.length * 0.5` test.  Over the integer
lengths involved the float comparison is exactly `seed.length < 2 *
scraped.length`. -/
def backfillWins (seed scraped : String) : Prop :=
  scraped ≠ "" ∧ seed.length < 2 * scraped.length

instance (seed scraped : String) : Decidable (backfillWins seed scraped) :=
  inferInstanceAs (Decidable (_ ∧ _))

/-- `new Date(s).getFullYear().toString()`: the year as a decimal string
for a parsable date, the string `"NaN"` for an invalid date (JS
`getFullYear` of an Invalid Date is `NaN`). -/
def yearString (env : Env) (s : String) : String :=
  match env.jsDateYear s with
  | some y => toString y
  | none => "NaN"

/-- The per-hit transformation inside `searchWithQuery`: seed the content
from the provider, backfill it from scraping when the fetched text beats
half the seed length, and reduce `publishedAt` to a year string. -/
def transformArticle (env : Env) (a : NewsAPIArticle) : TransformedResult :=
  let content :=
    if a.url = "" then seedContent a
    else if backfillWins (seedContent a) (scrapedFor env a.url) then scrapedFor env a.url
    else seedContent a
  { title := a.title, url := a.url, content := content, author := a.author,
    publishDate := yearString env a.publishedAt, source := a.sourceName }

/-- `searchWithQuery` from the source: `none` models a thrown fetch
(propagating to the handler's catch), a non-ok HTTP status yields `[]`,
otherwise every article is transformed. -/
def searchWithQuery (q : String) (env : Env) : Option (List TransformedResult) :=
  match env.newsFetch q with
  | none => none
  | some h =>
    if h.ok = false then some []
    else some (h.articles.map (transformArticle env))

/-- One step of the handler's dedup loop: state is `(allResults,
seenUrls)`; a result is appended only if its url is unseen. -/
def addUnique (st : List TransformedResult × List String)
    (r : TransformedResult) : List TransformedResult × List String :=
  if r.url ∈ st.2 then st else (st.1 ++ [r], st.2 ++ [r.url])

/-- The handler's accumulation over all search queries; `none` models a
thrown fetch aborting to the catch block. -/
def collectResults (env : Env) (queries : List String) :
    Option (List TransformedResult × List String) :=
  queries.foldlM
    (fun st q => (searchWithQuery q env).map (fun rs => rs.foldl addUnique st))
    ([], [])

/-- The handler's relevance sort: JS `sort((a, b) => bScore - aScore)`,
i.e. descending keyword score; JS sort is stable, modelled by a stable
insertion sort. -/
def sortByScore (argument : String) (rs : List TransformedResult) :
    List TransformedResult :=
  List.insertionSort
    (fun a b => keywordScore argument b ≤ keywordScore argument a) rs

/-- The final result list of the variant-1 handler: dedup across queries,
sort by score, truncate to the top 10. -/
def finalResults (env : Env) (argument : String) :
    Option (List TransformedResult) :=
  (collectResults env (createSearchQueries argument)).map
    (fun st => (sortByScore argument st.1).take 10)

/-- The variant-1 `Deno.serve` handler (CORS preflight aside): input
validation, configuration check, search, dedup, rank, truncate,
recommend. -/
def handler (query : Option String) (env : Env)
    (openAIApiKey : Option String) (recResp : Option RecResp) :
    HandlerResponse :=
  if jsTruthyOptStr query = false then
    ⟨400, none, none, some "Query parameter is required"⟩
  else
    match env.newsApiKey with
    | none => ⟨500, none, none, some "NewsAPI key not configured"⟩
    | some _ =>
      let q := query.getD ""
      match finalResults env q with
      | none => ⟨500, none, none, some "Internal server error"⟩
      | some fr =>
        ⟨200, some fr, some (getOpenAIRecommendation fr openAIApiKey recResp), none⟩

end V1

/-! ## Variant 2: the single-query Google Custom Search pipeline -/

namespace V2

/-- The first `pagemap.metatags` block of a Google hit; absent keys are
the empty string. -/
structure MetaTags where
  articleAuthor : String
  articlePublishedTime : String
deriving DecidableEq

/-- A `pagemap.newsarticle` / `pagemap.article` block. -/
structure PagemapArticle where
  author : String
  datepublished : String
deriving DecidableEq

/-- A Google Custom Search item.  The three metadata fields model
`pagemap?.metatags?.[0]`, `pagemap?.newsarticle?.[0]` and
`pagemap?.article?.[0]`. -/
structure GoogleSearchItem where
  title : String
  link : String
  displayLink : String
  metatags : Option MetaTags
  newsarticle : Option PagemapArticle
  article : Option PagemapArticle
deriving DecidableEq

/-- One Google round-trip: HTTP `ok` and the optional `items` array. -/
structure GoogleHttp where
  ok : Bool
  items : Option (List GoogleSearchItem)
deriving DecidableEq

/-- Variant-2 Firecrawl round-trip (same shape as variant 1's). -/
structure FirecrawlHttp where
  ok : Bool
  success : Bool
  text : String
  content : String
deriving DecidableEq

/-- Variant-2 direct fetch of the manual fallback. -/
structure DirectHttp where
  ok : Bool
  html : String
deriving DecidableEq

/-- Outcome of one OpenAI relevance-scoring call: HTTP `ok` and
`parseInt` of the reply (`none` = `NaN`). -/
structure ScoreResp where
  ok : Bool
  parsedInt : Option Int
deriving DecidableEq

/-- The external world of variant 2.  `primaryResp` / `fallbackResp` are
the two Google Custom Search attempts; `urlValid` models `new URL(url)`
succeeding; `extractArticleContent` is the variant-2 regex HTML
heuristic, uninterpreted; `scoreResp` is the per-article scoring oracle;
`jsDateYear` as in variant 1. -/
structure Env where
  googleApiKey : Option String
  googleSearchEngineId : Option String
  primaryResp : Option GoogleHttp
  fallbackResp : Option GoogleHttp
  firecrawlApiKey : Option String
  urlValid : String → Bool
  firecrawlResp : String → Option FirecrawlHttp
  directResp : String → Option DirectHttp
  extractArticleContent : String → String
  jsDateYear : String → Option Int
  openAIApiKey : Option String
  scoreResp : TransformedResult → Option ScoreResp
  recResp : Option RecResp

/-- `scrapeArticleContent` of variant 2: direct fetch (browser-like
headers), regex extraction, empty string on failure. -/
def scrapeArticleContent (env : Env) (url : String) : String :=
  match env.directResp url with
  | none => ""
  | some r => if r.ok = false then "" else env.extractArticleContent r.html

/-- `scrapeWithFirecrawl` of variant 2: unlike variant 1 it falls back to
`scrapeArticleContent` on every failure (missing key, invalid URL, thrown
fetch, HTTP error, unsuccessful payload) and also when the extracted text
is shorter than 100 characters. -/
def scrapeWithFirecrawl (env : Env) (url : String) : String :=
  match env.firecrawlApiKey with
  | none => scrapeArticleContent env url
  | some _ =>
    if env.urlValid url = false then scrapeArticleContent env url
    else
      match env.firecrawlResp url with
      | none => scrapeArticleContent env url
      | some r =>
        if r.ok = false then scrapeArticleContent env url
        else if r.success = false then scrapeArticleContent env url
        else
          let fullContent := jsOr r.text r.content
          if fullContent.length < 100 then scrapeArticleContent env url
          else fullContent

/-- `scoreArticleRelevance` from the source: keyword-overlap fallback
without a key; with a key, the oracle's 1–10 integer, and the neutral
default 5 on any failure or out-of-range reply. -/
def scoreArticleRelevance (article : TransformedResult) (argument : String)
    (env : Env) : Int :=
  match env.openAIApiKey with
  | none => (keywordScore argument article : Int)
  | some _ =>
    match env.scoreResp article with
    | none => 5
    | some r =>
      if r.ok = false then 5
      else
        match r.parsedInt with
        | none => 5
        | some s => if 1 ≤ s ∧ s ≤ 10 then s else 5

/-- The post-search domain denylist. -/
def unwantedSites : List String :=
  ["medium.com", "wikipedia.org", "github.com", "stackoverflow.com",
   "quora.com", "reddit.com"]

/-- The author-metadata fallback chain over the three pagemap blocks. -/
def itemAuthor (item : GoogleSearchItem) : String :=
  let a1 := match item.metatags with | some m => m.articleAuthor | none => ""
  let a2 := match item.newsarticle with | some n => jsOr a1 n.author | none => a1
  match item.article with | some ar => jsOr a2 ar.author | none => a2

/-- The publish-date fallback chain over the three pagemap blocks. -/
def itemDate (item : GoogleSearchItem) : String :=
  let d1 := match item.metatags with | some m => m.articlePublishedTime | none => ""
  let d2 := match item.newsarticle with | some n => jsOr d1 n.datepublished | none => d1
  match item.article with | some ar => jsOr d2 ar.datepublished | none => d2

/-- The year extraction of variant 2: empty for an absent date, else
`new Date(d).getFullYear().toString()` — which is `"NaN"` for an invalid
date, since `new Date` never throws and the `catch` in the source is
unreachable. -/
def itemYear (env : Env) (publishDate : String) : String :=
  if publishDate = "" then ""
  else
    match env.jsDateYear publishDate with
    | some y => toString y
    | none => "NaN"

/-- The per-item body of `searchWithGoogle`'s loop: skip falsy links and
denylisted domains, scrape, keep the hit only when the scraped content is
truthy and longer than 100 characters. -/
def transformItem (env : Env) (item : GoogleSearchItem) :
    Option TransformedResult :=
  if item.link = "" then none
  else if unwantedSites.any (fun site => jsIncludes (lowerStr item.link) site) then none
  else
    let scrapedContent := scrapeWithFirecrawl env item.link
    if scrapedContent ≠ "" ∧ 100 < scrapedContent.length then
      some { title := jsOr item.title "Unknown Title", url := item.link,
             content := scrapedContent, author := itemAuthor item,
             publishDate := itemYear env (itemDate item),
             source := jsOr item.displayLink "" }
    else none

/-- The item list `searchWithGoogle` ends up iterating: empty on missing
credentials, on a thrown fetch, on HTTP failure of both the primary and
the simplified fallback request, and on an absent `items` array. -/
def googleItems (env : Env) : List GoogleSearchItem :=
  if env.googleApiKey = none ∨ env.googleSearchEngineId = none then []
  else
    match env.primaryResp with
    | none => []
    | some r =>
      if r.ok then r.items.getD []
      else
        match env.fallbackResp with
        | none => []
        | some r2 => if r2.ok then r2.items.getD [] else []

/-- `searchWithGoogle` from the source. -/
def searchWithGoogle (env : Env) : List TransformedResult :=
  (googleItems env).filterMap (transformItem env)

/-- The handler's scoring step: pair every result with its relevance
score (`relevanceScore` in the source). -/
def scoredResults (env : Env) (argument : String)
    (rs : List TransformedResult) : List (TransformedResult × Int) :=
  rs.map (fun r => (r, scoreArticleRelevance r argument env))

/-- The final result list of the variant-2 handler: sort by descending
score, truncate to the top 10, drop the scores. -/
def finalResults (env : Env) (argument : String)
    (rs : List TransformedResult) : List TransformedResult :=
  (((scoredResults env argument rs).insertionSort
      (fun a b => b.2 ≤ a.2)).take 10).map Prod.fst

/-- The variant-2 `Deno.serve` handler: input validation, configuration
check, search, the dedicated empty-result response (status 200 but with
an `error` string in the body), else rank, truncate, recommend. -/
def handler (query : Option String) (env : Env) : HandlerResponse :=
  if jsTruthyOptStr query = false then
    ⟨400, none, none, some "Query parameter is required"⟩
  else if env.googleApiKey = none ∨ env.googleSearchEngineId = none then
    ⟨500, none, none, some "Google Custom Search not configured"⟩
  else
    let q := query.getD ""
    let allResults := searchWithGoogle env
    if allResults = [] then
      ⟨200, some [], some none, some "No relevant articles found"⟩
    else
      let fr := finalResults env q allResults
      ⟨200, some fr, some (getOpenAIRecommendation fr env.openAIApiKey env.recResp), none⟩

end V2

/-! ## Claim C3: at most ten results -/

/-- Claim C3: in both pipeline variants the emitted result list is
truncated to at most the 10 highest-scored entries after scoring and
sorting. -/
theorem C3_results_at_most_ten (env1 : V1.Env) (arg1 : String)
    (env2 : V2.Env) (arg2 : String) (rs : List TransformedResult) :
    (∀ fr, V1.finalResults env1 arg1 = some fr → fr.length ≤ 10)
    ∧ (V2.finalResults env2 arg2 rs).length ≤ 10 := by
  constructor
  · intro fr h
    unfold V1.finalResults at h
    cases hc : V1.collectResults env1 (createSearchQueries arg1) with
    | none => rw [hc] at h; exact absurd h (by simp)
    | some st =>
      rw [hc] at h
      cases h
      simp [List.length_take]
  · unfold V2.finalResults
    simp [List.length_take]

/-- Witness for C3: a concrete variant-1 environment whose NewsAPI call
fails with a non-ok status yields `some []`, and the theorem bounds its
length. -/
theorem C3_witness :
    V1.finalResults
        ⟨some "nk", none, fun _ => some ⟨false, []⟩, fun _ => none,
         fun _ => none, fun _ => "", fun _ => none⟩ "tax" = some []
    ∧ ([] : List TransformedResult).length ≤ 10 :=
  ⟨by decide,
   (C3_results_at_most_ten
      ⟨some "nk", none, fun _ => some ⟨false, []⟩, fun _ => none,
       fun _ => none, fun _ => "", fun _ => none⟩ "tax"
      ⟨none, none, none, none, none, fun _ => false, fun _ => none,
       fun _ => none, fun _ => "", fun _ => none, none, fun _ => none, none⟩
      "tax" []).1 [] (by decide)⟩

/-! ## Claim C2: recommendation index validation -/

/-- Claim C2: every non-null recommendation carries a 0-based index in
`[0, results.length)` — the oracle's 1-based index is decremented and
bounds-checked — and a thrown fetch, a non-ok HTTP status, or a malformed
oracle reply all yield `none` instead of propagating a failure. -/
theorem C2_recommendation_bounds (articles : List TransformedResult)
    (key : Option String) (resp : Option RecResp) :
    (∀ idx reason,
        getOpenAIRecommendation articles key resp = some (idx, reason) →
        0 ≤ idx ∧ idx < (articles.length : Int))
    ∧ (resp = none → getOpenAIRecommendation articles key resp = none)
    ∧ (∀ r, resp = some r → r.ok = false ∨ r.parsed = none →
        getOpenAIRecommendation articles key resp = none) := by
  refine ⟨?_, ?_, ?_⟩
  · intro idx reason h
    unfold getOpenAIRecommendation at h
    cases key with
    | none => exact absurd h (by simp)
    | some k =>
      cases resp with
      | none => exact absurd h (by simp)
      | some r =>
        simp only at h
        split at h
        · exact absurd h (by simp)
        · cases hp : r.parsed with
          | none => rw [hp] at h; exact absurd h (by simp)
          | some j =>
            rw [hp] at h
            simp only at h
            split at h
            · split at h
              · rename_i hb
                obtain ⟨h1, h2⟩ := Option.some.injEq _ _ ▸ h
                cases h
                exact hb
              · exact absurd h (by simp)
            · exact absurd h (by simp)
  · intro hr
    subst hr
    cases key <;> simp [getOpenAIRecommendation]
  · intro r hr hfail
    subst hr
    cases key with
    | none => simp [getOpenAIRecommendation]
    | some k =>
      rcases hfail with hok | hp
      · simp [getOpenAIRecommendation, hok]
      · unfold getOpenAIRecommendation
        simp only [hp]
        split <;> simp

/-- Witness for C2 at a concrete input: a two-article list and the oracle
reply `{recommendedIndex: 2, reason: "solid evidence"}` produce the
0-based index 1, which the theorem bounds by the list length. -/
theorem C2_witness :
    getOpenAIRecommendation
        [⟨"t1", "u1", "c1", "a1", "2020", "s1"⟩, ⟨"t2", "u2", "c2", "a2", "2021", "s2"⟩]
        (some "key") (some ⟨true, some ⟨some 2, some "solid evidence"⟩⟩) =
      some (1, "solid evidence")
    ∧ (0 ≤ (1 : Int) ∧ (1 : Int) <
        (([⟨"t1", "u1", "c1", "a1", "2020", "s1"⟩,
           ⟨"t2", "u2", "c2", "a2", "2021", "s2"⟩] :
            List TransformedResult).length : Int)) :=
  ⟨by decide,
   (C2_recommendation_bounds _ (some "key")
      (some ⟨true, some ⟨some 2, some "solid evidence"⟩⟩)).1 1 "solid evidence"
      (by decide)⟩

/-! ## Claim C8: the content backfill rule -/

/-- Claim C8: in the NewsAPI strategy every raw hit's seed content is
replaced by the fetched content exactly when the fetched content is
non-empty and longer than half the seed length (`backfillWins`), and kept
unchanged otherwise; `searchWithQuery` transforms every article this
way. -/
theorem C8_content_backfill (env : V1.Env) (q : String) (h : V1.NewsAPIHttp)
    (hq : env.newsFetch q = some h) (hok : h.ok = true) :
    V1.searchWithQuery q env = some (h.articles.map (V1.transformArticle env))
    ∧ ∀ a ∈ h.articles, a.url ≠ "" →
        (V1.backfillWins (V1.seedContent a) (V1.scrapedFor env a.url) →
          (V1.transformArticle env a).content = V1.scrapedFor env a.url)
        ∧ (¬ V1.backfillWins (V1.seedContent a) (V1.scrapedFor env a.url) →
          (V1.transformArticle env a).content = V1.seedContent a) := by
  constructor
  · unfold V1.searchWithQuery
    rw [hq]
    dsimp only
    rw [hok]
    simp
  · intro a _ hurl
    constructor
    · intro hwin
      simp [V1.transformArticle, hurl, hwin]
    · intro hlose
      simp [V1.transformArticle, hlose]

/-- Witness for C8: a hit with seed `"tiny"` (length 4) and a Firecrawl
payload of length 3 — nonempty and `4 < 2 * 3` — is backfilled. -/
theorem C8_witness :
    V1.searchWithQuery "tax"
        ⟨some "nk", some "fk", fun _ => some ⟨true,
            [⟨"T", "tiny", "", "https://e.com/a", "2024-01-01", "Au", "S"⟩]⟩,
         fun _ => some ⟨true, true, "abc", ""⟩, fun _ => none, fun _ => "",
         fun _ => some 2024⟩ =
      some [⟨"T", "https://e.com/a", "abc", "Au", "2024", "S"⟩] :=
  (C8_content_backfill
    ⟨some "nk", some "fk", fun _ => some ⟨true,
        [⟨"T", "tiny", "", "https://e.com/a", "2024-01-01", "Au", "S"⟩]⟩,
     fun _ => some ⟨true, true, "abc", ""⟩, fun _ => none, fun _ => "",
     fun _ => some 2024⟩ "tax" _ rfl rfl).1.trans (by decide)

/-! ## Claim C10: variant-1 content is never empty -/

/-- The seed is never empty: `'No content available'` backstops it. -/
theorem seedContent_ne_empty (a : V1.NewsAPIArticle) :
    V1.seedContent a ≠ "" := by
  unfold V1.seedContent jsOr
  split
  · split
    · decide
    · assumption
  · assumption

/-- Claim C10: every result of the NewsAPI strategy has non-empty
content: the seed defaults to the literal `"No content available"` when
the provider supplies neither description nor content, and scraped text
only ever replaces the seed when it is non-empty. -/
theorem C10_content_nonempty (env : V1.Env) (q : String)
    (rs : List TransformedResult) (h : V1.searchWithQuery q env = some rs) :
    (∀ r ∈ rs, r.content ≠ "")
    ∧ (∀ a : V1.NewsAPIArticle, a.description = "" → a.content = "" →
        V1.seedContent a = "No content available") := by
  constructor
  · intro r hr
    unfold V1.searchWithQuery at h
    cases hf : env.newsFetch q with
    | none => rw [hf] at h; exact absurd h (by simp)
    | some nh =>
      rw [hf] at h
      dsimp only at h
      by_cases hok : nh.ok = false
      · rw [if_pos hok] at h
        cases h
        exact absurd hr (by simp)
      · rw [if_neg hok] at h
        cases h
        obtain ⟨a, _, rfl⟩ := List.mem_map.mp hr
        show (V1.transformArticle env a).content ≠ ""
        unfold V1.transformArticle
        simp only
        split
        · exact seedContent_ne_empty a
        · split
          · rename_i hwin
            exact hwin.1
          · exact seedContent_ne_empty a
  · intro a hd hc
    simp [V1.seedContent, jsOr, hd, hc]

/-- Witness for C10: with every scrape failing and a hit carrying neither
description nor content, the emitted content is the literal fallback. -/
theorem C10_witness :
    V1.searchWithQuery "tax"
        ⟨some "nk", none, fun _ => some ⟨true,
            [⟨"T", "", "", "https://e.com/a", "x", "Au", "S"⟩]⟩,
         fun _ => none, fun _ => none, fun _ => "", fun _ => none⟩ =
      some [⟨"T", "https://e.com/a", "No content available", "Au", "NaN", "S"⟩]
    ∧ ∀ r ∈ [(⟨"T", "https://e.com/a", "No content available", "Au", "NaN", "S"⟩ :
          TransformedResult)], r.content ≠ "" :=
  ⟨by decide,
   by
    have := (C10_content_nonempty
      ⟨some "nk", none, fun _ => some ⟨true,
          [⟨"T", "", "", "https://e.com/a", "x", "Au", "S"⟩]⟩,
       fun _ => none, fun _ => none, fun _ => "", fun _ => none⟩ "tax"
      [⟨"T", "https://e.com/a", "No content available", "Au", "NaN", "S"⟩]
      (by decide)).1
    exact this⟩

/-! ## Claim C9: the content fetcher is total -/

/-- The manual fallback path has failed: the direct fetch threw, came
back with a non-ok status, or the HTML heuristic extracted nothing. -/
def V2.manualFailed (env : V2.Env) (url : String) : Prop :=
  match env.directResp url with
  | none => True
  | some r => r.ok = false ∨ env.extractArticleContent r.html = ""

/-- The Firecrawl path has failed: missing credential, invalid URL,
thrown fetch, HTTP error, unsuccessful payload, or extracted text below
the 100-character threshold. -/
def V2.firecrawlFailed (env : V2.Env) (url : String) : Prop :=
  env.firecrawlApiKey = none ∨ env.urlValid url = false ∨
    match env.firecrawlResp url with
    | none => True
    | some r =>
      r.ok = false ∨ r.success = false ∨ (jsOr r.text r.content).length < 100

/-- Claim C9: the content fetcher is a total function into `String` —
never an exception — every Firecrawl failure falls back to the manual
scrape, and when that fails too the result is the empty string. -/
theorem C9_fetcher_total (env : V2.Env) (url : String) :
    (V2.manualFailed env url → V2.scrapeArticleContent env url = "")
    ∧ (V2.firecrawlFailed env url →
        V2.scrapeWithFirecrawl env url = V2.scrapeArticleContent env url)
    ∧ (V2.firecrawlFailed env url → V2.manualFailed env url →
        V2.scrapeWithFirecrawl env url = "") := by
  have hman : V2.manualFailed env url → V2.scrapeArticleContent env url = "" := by
    intro hm
    unfold V2.manualFailed at hm
    unfold V2.scrapeArticleContent
    cases hd : env.directResp url with
    | none => rfl
    | some r =>
      rw [hd] at hm
      dsimp only
      rcases hm with hok | hextract
      · rw [if_pos hok]
      · split
        · rfl
        · exact hextract
  have hfc : V2.firecrawlFailed env url →
      V2.scrapeWithFirecrawl env url = V2.scrapeArticleContent env url := by
    intro hf
    unfold V2.firecrawlFailed at hf
    unfold V2.scrapeWithFirecrawl
    cases hk : env.firecrawlApiKey with
    | none => rfl
    | some k =>
      rw [hk] at hf
      dsimp only
      rcases hf with hnone | hurl | hresp
      · exact absurd hnone (by simp)
      · rw [if_pos hurl]
      · by_cases hv : env.urlValid url = false
        · rw [if_pos hv]
        · rw [if_neg hv]
          cases hr : env.firecrawlResp url with
          | none => rfl
          | some r =>
            rw [hr] at hresp
            dsimp only
            rcases hresp with hok | hsucc | hlen
            · rw [if_pos hok]
            · by_cases hok2 : r.ok = false
              · rw [if_pos hok2]
              · rw [if_neg hok2, if_pos hsucc]
            · by_cases hok2 : r.ok = false
              · rw [if_pos hok2]
              · rw [if_neg hok2]
                by_cases hs2 : r.success = false
                · rw [if_pos hs2]
                · rw [if_neg hs2, if_pos hlen]
  exact ⟨hman, hfc, fun h1 h2 => (hfc h1).trans (hman h2)⟩

/-- Witness for C9: with no Firecrawl key and a throwing direct fetch,
both paths fail and the fetcher returns the empty string. -/
theorem C9_witness :
    V2.scrapeWithFirecrawl
        ⟨some "gk", some "id", none, none, none, fun _ => false, fun _ => none,
         fun _ => none, fun _ => "", fun _ => none, none, fun _ => none, none⟩
        "https://e.com/a" = "" :=
  (C9_fetcher_total
      ⟨some "gk", some "id", none, none, none, fun _ => false, fun _ => none,
       fun _ => none, fun _ => "", fun _ => none, none, fun _ => none, none⟩
      "https://e.com/a").2.2 (Or.inl rfl) trivial

/-! ## Claim C5: publishDate on malformed dates (code bug) -/

/-- Claim C5 fails on the code: a provider date the JS `Date` parser
rejects (an Invalid Date, e.g. `"not-a-date"`) makes `getFullYear()`
return `NaN`, so both variants emit the string `"NaN"` as `publishDate`
— neither absent nor a 4-digit year.  The variant-2 `try/catch` around
`new Date` is dead code because `new Date` never throws. -/
theorem C5_nan_publishDate :
    (V1.transformArticle
        ⟨some "nk", none, fun _ => none, fun _ => none, fun _ => none,
         fun _ => "", fun _ => none⟩
        ⟨"T", "d", "", "https://e.com/a", "not-a-date", "Au", "S"⟩).publishDate
      = "NaN"
    ∧ V2.itemYear
        ⟨some "gk", some "id", none, none, none, fun _ => false, fun _ => none,
         fun _ => none, fun _ => "", fun _ => none, none, fun _ => none, none⟩
        "not-a-date" = "NaN"
    ∧ ¬ ("NaN".data.all Char.isDigit = true) := by
  refine ⟨by decide, by decide, by decide⟩

/-! ## Claim C4: the zero-result response -/

/-- On an empty article list the recommendation is always `none`: the
0-based index would have to be nonnegative and below length 0. -/
theorem getOpenAIRecommendation_nil (k : Option String) (r : Option RecResp) :
    getOpenAIRecommendation [] k r = none := by
  unfold getOpenAIRecommendation
  cases k with
  | none => rfl
  | some _ =>
    cases r with
    | none => rfl
    | some rr =>
      dsimp only
      split
      · rfl
      · cases hp : rr.parsed with
        | none => rfl
        | some j =>
          dsimp only
          split
          · split
            · rename_i hb
              exfalso
              simp only [List.length_nil, Nat.cast_zero] at hb
              omega
            · rfl
          · rfl

/-- A concrete variant-2 environment whose Google search succeeds with an
empty item list. -/
def emptyEnv2 : V2.Env :=
  ⟨some "gk", some "id", some ⟨true, some []⟩, none, none, fun _ => false,
   fun _ => none, fun _ => none, fun _ => "", fun _ => none, none,
   fun _ => none, none⟩

/-- Counterexample to claim C4 as stated: in the Google variant a fully
executed pipeline with zero results answers with HTTP 200 and `results:
[]`, but the body does carry an `error` string — the claim's "no error"
is false. -/
theorem C4_counterexample :
    (V2.handler (some "tax") emptyEnv2).status = 200
    ∧ (V2.handler (some "tax") emptyEnv2).results = some []
    ∧ (V2.handler (some "tax") emptyEnv2).error =
        some "No relevant articles found" := by
  refine ⟨by decide, by decide, by decide⟩

/-- Claim C4 as amended: a zero-result outcome of a fully executed
pipeline is an HTTP 200 response with `results: []` and a null
recommendation — never an HTTP error status — though the Google variant
additionally places the informational string `"No relevant articles
found"` in the body's `error` field (the NewsAPI variant emits no error
field).  It stays distinguishable from the configuration-error response,
which is HTTP 500 and has no `results` field. -/
theorem C4_empty_result_success (q : String) (hq : q ≠ "")
    (env2 : V2.Env) (hk2 : env2.googleApiKey ≠ none)
    (hid2 : env2.googleSearchEngineId ≠ none)
    (hempty : V2.searchWithGoogle env2 = [])
    (env2b : V2.Env)
    (hmiss : env2b.googleApiKey = none ∨ env2b.googleSearchEngineId = none)
    (env1 : V1.Env) (nk : String) (hk1 : env1.newsApiKey = some nk)
    (st : List TransformedResult × List String)
    (hc : V1.collectResults env1 (createSearchQueries q) = some st)
    (hst : st.1 = []) (k : Option String) (rr : Option RecResp) :
    V2.handler (some q) env2 =
      ⟨200, some [], some none, some "No relevant articles found"⟩
    ∧ V2.handler (some q) env2b =
      ⟨500, none, none, some "Google Custom Search not configured"⟩
    ∧ V1.handler (some q) env1 k rr = ⟨200, some [], some none, none⟩ := by
  refine ⟨?_, ?_, ?_⟩
  · unfold V2.handler
    rw [if_neg (by simp [jsTruthyOptStr, hq]),
        if_neg (by simp [hk2, hid2]), hempty]
    simp
  · unfold V2.handler
    rw [if_neg (by simp [jsTruthyOptStr, hq]), if_pos hmiss]
  · unfold V1.handler
    rw [if_neg (by simp [jsTruthyOptStr, hq]), hk1]
    dsimp only
    have hfin : V1.finalResults env1 ((some q).getD "") = some [] := by
      unfold V1.finalResults
      simp only [Option.getD_some, hc]
      show some ((V1.sortByScore q st.1).take 10) = some []
      rw [hst]
      rfl
    rw [hfin]
    dsimp only
    rw [getOpenAIRecommendation_nil]

/-- Witness for C4 at concrete inputs: the Google variant with an empty
hit list, a Google variant missing its key, and a NewsAPI variant whose
single query gets a non-ok provider reply. -/
theorem C4_witness :
    V2.handler (some "tax") emptyEnv2 =
      ⟨200, some [], some none, some "No relevant articles found"⟩
    ∧ V2.handler (some "tax")
        ⟨none, none, none, none, none, fun _ => false, fun _ => none,
         fun _ => none, fun _ => "", fun _ => none, none, fun _ => none, none⟩ =
      ⟨500, none, none, some "Google Custom Search not configured"⟩
    ∧ V1.handler (some "tax")
        ⟨some "nk", none, fun _ => some ⟨false, []⟩, fun _ => none,
         fun _ => none, fun _ => "", fun _ => none⟩ none none =
      ⟨200, some [], some none, none⟩ :=
  C4_empty_result_success "tax" (by decide) emptyEnv2 (by decide) (by decide)
    (by decide)
    ⟨none, none, none, none, none, fun _ => false, fun _ => none,
     fun _ => none, fun _ => "", fun _ => none, none, fun _ => none, none⟩
    (Or.inl rfl)
    ⟨some "nk", none, fun _ => some ⟨false, []⟩, fun _ => none,
     fun _ => none, fun _ => "", fun _ => none⟩ "nk" rfl
    ([], []) (by decide) rfl none none

/-! ## Claim C1: uniqueness of result urls -/

/-- Invariant of the variant-1 dedup loop: the seen-set is exactly the
url list of the accumulated results, and it has no duplicates. -/
def urlsInv (st : List TransformedResult × List String) : Prop :=
  st.2 = st.1.map TransformedResult.url ∧ st.2.Nodup

theorem addUnique_inv (st : List TransformedResult × List String)
    (r : TransformedResult) (h : urlsInv st) : urlsInv (V1.addUnique st r) := by
  unfold V1.addUnique
  split
  · exact h
  · rename_i hnot
    obtain ⟨h1, h2⟩ := h
    refine ⟨by simp [h1], ?_⟩
    rw [List.nodup_append]
    refine ⟨h2, List.nodup_singleton _, ?_⟩
    intro x hx hx2
    simp only [List.mem_singleton] at hx2
    subst hx2
    exact hnot hx

theorem foldl_addUnique_inv (rs : List TransformedResult)
    (st : List TransformedResult × List String) (h : urlsInv st) :
    urlsInv (rs.foldl V1.addUnique st) := by
  induction rs generalizing st with
  | nil => exact h
  | cons r rs ih => exact ih _ (addUnique_inv _ _ h)

theorem foldlM_addUnique_inv (env : V1.Env) (queries : List String) :
    ∀ (init : List TransformedResult × List String)
      (st : List TransformedResult × List String), urlsInv init →
      List.foldlM (fun st q => (V1.searchWithQuery q env).map
        (fun rs => rs.foldl V1.addUnique st)) init queries = some st →
      urlsInv st := by
  induction queries with
  | nil =>
    intro init st hinit h
    simp only [List.foldlM_nil, pure, Option.some.injEq] at h
    subst h
    exact hinit
  | cons q qs ih =>
    intro init st hinit h
    rw [List.foldlM_cons] at h
    cases hs : V1.searchWithQuery q env with
    | none => rw [hs] at h; exact absurd h (by simp)
    | some rs =>
      rw [hs] at h
      have h2 : List.foldlM (fun st q => (V1.searchWithQuery q env).map
          (fun rs => rs.foldl V1.addUnique st)) (rs.foldl V1.addUnique init)
          qs = some st := h
      exact ih _ _ (foldl_addUnique_inv _ _ hinit) h2

theorem finalResults1_nodup (env : V1.Env) (argument : String)
    (fr : List TransformedResult)
    (h : V1.finalResults env argument = some fr) :
    (fr.map TransformedResult.url).Nodup := by
  unfold V1.finalResults at h
  cases hc : V1.collectResults env (createSearchQueries argument) with
  | none => rw [hc] at h; exact absurd h (by simp)
  | some st =>
    rw [hc] at h
    obtain ⟨hmap, hnd⟩ := foldlM_addUnique_inv env (createSearchQueries argument)
      ([], []) st ⟨rfl, List.nodup_nil⟩ hc
    cases h
    have hperm : List.Perm (V1.sortByScore argument st.1) st.1 :=
      List.perm_insertionSort _ _
    have h2 : (st.1.map TransformedResult.url).Nodup := hmap ▸ hnd
    have h3 : ((V1.sortByScore argument st.1).map TransformedResult.url).Nodup :=
      ((hperm.map TransformedResult.url).symm).nodup h2
    exact h3.sublist ((List.take_sublist _ _).map _)

theorem transformItem_url (env : V2.Env) (item : V2.GoogleSearchItem)
    (r : TransformedResult) (h : V2.transformItem env item = some r) :
    r.url = item.link := by
  unfold V2.transformItem at h
  split at h
  · exact absurd h (by simp)
  · split at h
    · exact absurd h (by simp)
    · dsimp only at h
      split at h
      · cases h; rfl
      · exact absurd h (by simp)

theorem map_filterMap_sublist {α β γ : Type} (f : α → Option β) (g : β → γ)
    (k : α → γ) (hfg : ∀ a b, f a = some b → g b = k a) :
    ∀ l : List α, List.Sublist ((l.filterMap f).map g) (l.map k) := by
  intro l
  induction l with
  | nil => simp
  | cons a l ih =>
    cases hf : f a with
    | none =>
      rw [List.filterMap_cons, hf, List.map_cons]
      exact ih.cons _
    | some b =>
      rw [List.filterMap_cons, hf, List.map_cons, List.map_cons, hfg a b hf]
      exact ih.cons₂ _

/-- In the Google variant the emitted urls are exactly the surviving
items' links, in order: a sublist of the provider's link list. -/
theorem searchWithGoogle_urls_sublist (env : V2.Env) :
    List.Sublist ((V2.searchWithGoogle env).map TransformedResult.url)
      ((V2.googleItems env).map V2.GoogleSearchItem.link) :=
  map_filterMap_sublist _ _ _
    (fun i r hr => transformItem_url env i r hr) _

theorem finalResults2_nodup (env : V2.Env) (arg : String)
    (rs : List TransformedResult)
    (h : (rs.map TransformedResult.url).Nodup) :
    ((V2.finalResults env arg rs).map TransformedResult.url).Nodup := by
  unfold V2.finalResults
  have hperm := List.perm_insertionSort
    (fun a b : TransformedResult × Int => b.2 ≤ a.2)
    (V2.scoredResults env arg rs)
  have h1 : ((V2.scoredResults env arg rs).map
      (fun p : TransformedResult × Int => p.1.url)).Nodup := by
    unfold V2.scoredResults
    rw [List.map_map]
    simpa using h
  have h2 : ((List.insertionSort (fun a b => b.2 ≤ a.2)
      (V2.scoredResults env arg rs)).map
      (fun p : TransformedResult × Int => p.1.url)).Nodup :=
    ((hperm.map _).symm).nodup h1
  rw [List.map_map]
  exact h2.sublist ((List.take_sublist _ _).map _)

/-- Claim C1 as amended: in the NewsAPI variant the emitted result list
always has pairwise-distinct urls (the seen-set loop enforces it); in the
Google variant there is no dedup step — the urls are distinct provided
the provider's item links already are. -/
theorem C1_unique_urls (env1 : V1.Env) (arg1 : String)
    (env2 : V2.Env) (arg2 : String)
    (hlinks : ((V2.googleItems env2).map V2.GoogleSearchItem.link).Nodup) :
    (∀ fr, V1.finalResults env1 arg1 = some fr →
        (fr.map TransformedResult.url).Nodup)
    ∧ ((V2.finalResults env2 arg2 (V2.searchWithGoogle env2)).map
        TransformedResult.url).Nodup :=
  ⟨fun fr h => finalResults1_nodup env1 arg1 fr h,
   finalResults2_nodup env2 arg2 _
     (hlinks.sublist (searchWithGoogle_urls_sublist env2))⟩

/-- 101 characters, clearing the >100 scraped-content threshold. -/
def longText : String := String.mk (List.replicate 101 'x')

/-- A Google response carrying the same item twice. -/
def dupEnv2 : V2.Env :=
  ⟨some "gk", some "id",
   some ⟨true, some [⟨"T", "https://example.com/a", "example.com", none, none, none⟩,
                     ⟨"T", "https://example.com/a", "example.com", none, none, none⟩]⟩,
   none, some "fk", fun _ => true, fun _ => some ⟨true, true, longText, ""⟩,
   fun _ => none, fun _ => "", fun _ => none, none, fun _ => none, none⟩

/-- Counterexample to claim C1 as stated: the Google strategy never
dedups, so a provider response repeating one link yields a final result
list with two entries sharing a url. -/
theorem C1_counterexample :
    ¬ ((V2.finalResults dupEnv2 "tax" (V2.searchWithGoogle dupEnv2)).map
        TransformedResult.url).Nodup := by decide

/-- A Google response with two distinct links, both scraping long. -/
def twoEnv2 : V2.Env :=
  ⟨some "gk", some "id",
   some ⟨true, some [⟨"T", "https://example.com/a", "example.com", none, none, none⟩,
                     ⟨"U", "https://example.com/b", "example.com", none, none, none⟩]⟩,
   none, some "fk", fun _ => true, fun _ => some ⟨true, true, longText, ""⟩,
   fun _ => none, fun _ => "", fun _ => none, none, fun _ => none, none⟩

/-- Witness for C1 at a concrete input with distinct provider links. -/
theorem C1_witness :
    ((V2.googleItems twoEnv2).map V2.GoogleSearchItem.link).Nodup
    ∧ ((V2.finalResults twoEnv2 "tax" (V2.searchWithGoogle twoEnv2)).map
        TransformedResult.url).Nodup :=
  ⟨by decide,
   (C1_unique_urls
      ⟨some "nk", none, fun _ => some ⟨false, []⟩, fun _ => none,
       fun _ => none, fun _ => "", fun _ => none⟩ "tax"
      twoEnv2 "tax" (by decide)).2⟩

/-! ## Claim C7: the key-term extractor -/

theorem white_not_word {c : Char} (h : isWhite c = true) :
    isWordChar c = false := by
  unfold isWhite Char.isWhitespace at h
  simp only [Bool.or_eq_true, decide_eq_true_eq] at h
  rcases h with ((h | h) | h) | h <;> subst h <;> decide

theorem word_not_white {c : Char} (h : isWordChar c = true) :
    isWhite c = false := by
  by_contra hx
  have hw : isWhite c = true := by simpa using hx
  rw [white_not_word hw] at h
  exact absurd h (by simp)

/-- Replacing each non-word non-white character by a space makes
whiteness coincide with non-wordness. -/
theorem fix_white (c : Char) :
    isWhite (if isWordChar c || isWhite c then c else ' ') = !isWordChar c := by
  by_cases hw : isWordChar c = true
  · simp [hw, word_not_white hw]
  · have hw2 : isWordChar c = false := by simpa using hw
    by_cases hs : isWhite c = true
    · simp [hw2, hs]
    · have hs2 : isWhite c = false := by simpa using hs
      simp [hw2, hs2]
      decide

theorem fix_id (c : Char) (h : (!isWordChar c) = false) :
    (if isWordChar c || isWhite c then c else ' ') = c := by
  have hw : isWordChar c = true := by simpa using h
  simp [hw]

/-- Splitting the image of a character map agrees with splitting the
original list under a transported separator predicate, provided kept
characters are fixed by the map. -/
theorem splitAux_congr (p q : Char → Bool) (f : Char → Char)
    (hpq : ∀ c, p (f c) = q c) (hid : ∀ c, q c = false → f c = c) :
    ∀ (cs acc : List Char), splitAux p (cs.map f) acc = splitAux q cs acc := by
  intro cs
  induction cs with
  | nil => intro acc; rfl
  | cons c cs ih =>
    intro acc
    rw [List.map_cons]
    show (if p (f c) then acc.reverse :: splitAux p (cs.map f) []
          else splitAux p (cs.map f) (f c :: acc))
        = (if q c then acc.reverse :: splitAux q cs []
          else splitAux q cs (c :: acc))
    rw [hpq c]
    by_cases h : q c = true
    · rw [if_pos h, if_pos h, ih]
    · have hf : q c = false := by simpa using h
      rw [if_neg h, if_neg h, hid c hf, ih]

/-- Tokens of `s` split at the characters satisfying `sep`. -/
def splitTokens (sep : Char → Bool) (s : String) : List String :=
  (splitChars sep s.data).map String.mk

/-- Modelled from the spec (claim C7's own wording): the lowercase tokens
of the argument with every non-alphanumeric character treated as a
separator, kept when of length ≥ 3 and not stop-listed, duplicates
collapsed to the first occurrence. -/
def claimKeyTermsAlnum (argument : String) : List String :=
  dedupFirst ((splitTokens (fun c => !c.isAlphanum) (lowerStr argument)).filter
    (fun w => decide (3 ≤ w.length) && !(stopWords.contains w)))

/-- The amended tokenizer: as `claimKeyTermsAlnum` but the separators are
the non-word characters, i.e. underscore joins tokens as in JS `\w`. -/
def claimKeyTermsWord (argument : String) : List String :=
  dedupFirst ((splitTokens (fun c => !isWordChar c) (lowerStr argument)).filter
    (fun w => decide (3 ≤ w.length) && !(stopWords.contains w)))

/-- The source's replace-then-split-on-whitespace pipeline equals direct
tokenization at non-word characters. -/
theorem extractKeyTerms_eq_word (argument : String) :
    extractKeyTerms argument = claimKeyTermsWord argument := by
  unfold extractKeyTerms claimKeyTermsWord splitTokens splitChars
  dsimp only
  rw [splitAux_congr isWhite (fun c => !isWordChar c)
      (fun c => if isWordChar c || isWhite c then c else ' ') fix_white fix_id]

/-- Counterexample to claim C7 as stated: underscore is not alphanumeric,
so under the claim it separates tokens, but the code's `\w` class keeps
`"foo_bar"` as one token. -/
theorem C7_counterexample :
    extractKeyTerms "foo_bar" = ["foo_bar"]
    ∧ claimKeyTermsAlnum "foo_bar" = ["foo", "bar"]
    ∧ extractKeyTerms "foo_bar" ≠ claimKeyTermsAlnum "foo_bar" := by
  refine ⟨by decide, by decide, by decide⟩

/-- Claim C7 as amended: the extractor returns the lowercase tokens over
word characters (alphanumeric or underscore — non-word characters are the
separators) of length ≥ 3 that are not stop-listed, duplicates collapsed
to the first occurrence in first-seen order; the given scenario argument
yields exactly its six content words. -/
theorem C7_key_term_extractor (argument : String) :
    extractKeyTerms argument = claimKeyTermsWord argument
    ∧ extractKeyTerms "Climate change requires immediate government intervention" =
        ["climate", "change", "requires", "immediate", "government", "intervention"] :=
  ⟨extractKeyTerms_eq_word argument, by decide⟩

/-! ## Claim C6: the query strategy builder -/

/-- All characters of every chunk produced by `splitAux` fail the
separator predicate, provided the accumulator's do. -/
theorem splitAux_chars (p : Char → Bool) :
    ∀ (cs acc : List Char), (∀ c ∈ acc, p c = false) →
      ∀ w ∈ splitAux p cs acc, ∀ c ∈ w, p c = false := by
  intro cs
  induction cs with
  | nil =>
    intro acc hacc w hw c hc
    simp only [splitAux, List.mem_singleton] at hw
    subst hw
    exact hacc c (List.mem_reverse.mp hc)
  | cons b cs ih =>
    intro acc hacc w hw c hc
    by_cases hb : p b = true
    · simp only [splitAux, hb, if_true] at hw
      rcases List.mem_cons.mp hw with rfl | hw2
      · exact hacc c (List.mem_reverse.mp hc)
      · exact ih [] (by simp) w hw2 c hc
    · have hb2 : p b = false := by simpa using hb
      simp only [splitAux, hb2, Bool.false_eq_true, if_false] at hw
      refine ih (b :: acc) ?_ w hw c hc
      intro c2 hc2
      rcases List.mem_cons.mp hc2 with rfl | h2
      · exact hb2
      · exact hacc _ h2

theorem mem_insertUnique (seen : List String) (x y : String)
    (h : y ∈ insertUnique seen x) : y ∈ seen ∨ y = x := by
  unfold insertUnique at h
  split at h
  · exact Or.inl h
  · rcases List.mem_append.mp h with h1 | h1
    · exact Or.inl h1
    · simp only [List.mem_singleton] at h1
      exact Or.inr h1

theorem mem_foldl_insertUnique (l : List String) :
    ∀ (acc : List String) (y : String),
      y ∈ l.foldl insertUnique acc → y ∈ acc ∨ y ∈ l := by
  induction l with
  | nil => intro acc y h; exact Or.inl h
  | cons x l ih =>
    intro acc y h
    rcases ih (insertUnique acc x) y h with h1 | h1
    · rcases mem_insertUnique _ _ _ h1 with h2 | h2
      · exact Or.inl h2
      · exact Or.inr (by simp [h2])
    · exact Or.inr (List.mem_cons_of_mem _ h1)

theorem mem_dedupFirst (l : List String) (y : String)
    (h : y ∈ dedupFirst l) : y ∈ l := by
  rcases mem_foldl_insertUnique l [] y h with h1 | h1
  · exact absurd h1 (by simp)
  · exact h1

/-- Every extracted key term consists of word characters only. -/
theorem extractKeyTerms_chars (argument : String) :
    ∀ t ∈ extractKeyTerms argument, ∀ c ∈ t.data, isWordChar c = true := by
  intro t ht c hc
  rw [extractKeyTerms_eq_word] at ht
  unfold claimKeyTermsWord at ht
  have ht2 := mem_dedupFirst _ _ ht
  have ht3 := List.mem_of_mem_filter ht2
  unfold splitTokens splitChars at ht3
  obtain ⟨w, hw, rfl⟩ := List.mem_map.mp ht3
  have hres := splitAux_chars (fun c => !isWordChar c)
    (lowerStr argument).data [] (by simp) w hw c hc
  simpa using hres

/-- A non-word character never occurs in a key term. -/
theorem term_not_mem (argument : String) (t : String)
    (ht : t ∈ extractKeyTerms argument) (c : Char)
    (hc : isWordChar c = false) : c ∉ t.data := by
  intro hmem
  rw [extractKeyTerms_chars argument t ht c hmem] at hc
  exact absurd hc (by simp)

/-- A character that is neither a space nor in any joined string is not
in the join. -/
theorem joinSp_not_mem (c : Char) (hc : c ≠ ' ') :
    ∀ l : List String, (∀ t ∈ l, c ∉ t.data) → c ∉ (joinSp l).data := by
  intro l
  induction l with
  | nil =>
    intro _ hmem
    simp only [joinSp] at hmem
    exact absurd hmem (by simp)
  | cons t ts ih =>
    intro h
    cases ts with
    | nil =>
      simp only [joinSp]
      exact h t (by simp)
    | cons t2 ts2 =>
      rw [joinSp]
      intro hmem
      rw [String.data_append, String.data_append] at hmem
      rcases List.mem_append.mp hmem with h1 | h1
      · rcases List.mem_append.mp h1 with h2 | h2
        · exact h t (by simp) h2
        · have : c = ' ' := by simpa using h2
          exact hc this
      · exact ih (fun u hu => h u (by simp [hu])) h1

/-- Space count of a join of space-free strings: one per separator. -/
theorem joinSp_count_space :
    ∀ l : List String, l ≠ [] → (∀ t ∈ l, ' ' ∉ t.data) →
      (joinSp l).data.count ' ' = l.length - 1 := by
  intro l
  induction l with
  | nil => intro h; exact absurd rfl h
  | cons t ts ih =>
    intro _ hns
    cases ts with
    | nil =>
      simp only [joinSp, List.length_cons, List.length_nil]
      exact List.count_eq_zero.mpr (hns t (by simp))
    | cons t2 ts2 =>
      rw [joinSp, String.data_append, String.data_append,
          List.count_append, List.count_append]
      have h1 : t.data.count ' ' = 0 :=
        List.count_eq_zero.mpr (hns t (by simp))
      have h2 : ((" " : String).data).count ' ' = 1 := by decide
      rw [h1, h2, ih (by simp) (fun u hu => hns u (by simp [hu]))]
      simp only [List.length_cons]
      omega

/-- The quoted-terms query always contains a quote character. -/
theorem quote_mem_joinSp (t : String) (ts : List String) :
    '"' ∈ (joinSp (quoteTerm t :: ts)).data := by
  have hq : '"' ∈ (quoteTerm t).data := by
    unfold quoteTerm
    rw [String.data_append, String.data_append]
    simp
  cases ts with
  | nil => exact hq
  | cons t2 ts2 =>
    rw [joinSp, String.data_append, String.data_append]
    simp only [List.mem_append]
    exact Or.inl (Or.inl hq)

/-- Claim C6: for any argument with at least three key terms the query
builder emits the verbatim argument first and at least three pairwise
distinct queries overall. -/
theorem C6_query_builder (argument : String)
    (h : 3 ≤ (extractKeyTerms argument).length) :
    (createSearchQueries argument).head? = some argument
    ∧ 3 ≤ (createSearchQueries argument).toFinset.card := by
  have h2 : 2 ≤ (extractKeyTerms argument).length := by omega
  have hq : createSearchQueries argument =
      [argument,
       joinSp (((extractKeyTerms argument).take 4).map quoteTerm),
       joinSp ((extractKeyTerms argument).take 4),
       joinSp ((extractKeyTerms argument).take 3) ++ " study research"] := by
    unfold createSearchQueries
    dsimp only
    rw [if_pos h2, if_pos h, if_pos h2]
    simp
  obtain ⟨t1, t2, t3, rest, hT⟩ :
      ∃ t1 t2 t3 rest, extractKeyTerms argument = t1 :: t2 :: t3 :: rest := by
    cases hT : extractKeyTerms argument with
    | nil => rw [hT] at h; simp at h
    | cons a T1 =>
      cases T1 with
      | nil => rw [hT] at h; simp at h
      | cons b T2 =>
        cases T2 with
        | nil => rw [hT] at h; simp at h
        | cons c T3 => exact ⟨a, b, c, T3, rfl⟩
  have htake : ∀ t ∈ (extractKeyTerms argument).take 4,
      t ∈ extractKeyTerms argument := fun t ht => List.take_subset _ _ ht
  have htake3 : ∀ t ∈ (extractKeyTerms argument).take 3,
      t ∈ extractKeyTerms argument := fun t ht => List.take_subset _ _ ht
  -- the three generated queries are pairwise distinct
  have hquote : '"' ∈ (joinSp (((extractKeyTerms argument).take 4).map
      quoteTerm)).data := by
    rw [hT]
    exact quote_mem_joinSp _ _
  have hnq3 : '"' ∉ (joinSp ((extractKeyTerms argument).take 4)).data :=
    joinSp_not_mem '"' (by decide) _
      (fun t ht => term_not_mem argument t (htake t ht) '"' (by decide))
  have hnq4 : '"' ∉ (joinSp ((extractKeyTerms argument).take 3) ++
      " study research").data := by
    rw [String.data_append]
    intro hmem
    rcases List.mem_append.mp hmem with h1 | h1
    · exact joinSp_not_mem '"' (by decide) _
        (fun t ht => term_not_mem argument t (htake3 t ht) '"' (by decide)) h1
    · exact absurd h1 (by decide)
  have hd23 : joinSp (((extractKeyTerms argument).take 4).map quoteTerm) ≠
      joinSp ((extractKeyTerms argument).take 4) := by
    intro he
    rw [he] at hquote
    exact hnq3 hquote
  have hd24 : joinSp (((extractKeyTerms argument).take 4).map quoteTerm) ≠
      joinSp ((extractKeyTerms argument).take 3) ++ " study research" := by
    intro he
    rw [he] at hquote
    exact hnq4 hquote
  have hnosp4 : ∀ t ∈ (extractKeyTerms argument).take 4, ' ' ∉ t.data :=
    fun t ht => term_not_mem argument t (htake t ht) ' ' (by decide)
  have hnosp3 : ∀ t ∈ (extractKeyTerms argument).take 3, ' ' ∉ t.data :=
    fun t ht => term_not_mem argument t (htake3 t ht) ' ' (by decide)
  have hc3 : (joinSp ((extractKeyTerms argument).take 4)).data.count ' ' =
      ((extractKeyTerms argument).take 4).length - 1 :=
    joinSp_count_space _ (by rw [hT]; simp) hnosp4
  have hc4 : (joinSp ((extractKeyTerms argument).take 3) ++
      " study research").data.count ' ' = 4 := by
    rw [String.data_append, List.count_append,
        joinSp_count_space _ (by rw [hT]; simp) hnosp3]
    have hlen3 : ((extractKeyTerms argument).take 3).length = 3 := by
      rw [hT]; simp
    rw [hlen3]
    decide
  have hd34 : joinSp ((extractKeyTerms argument).take 4) ≠
      joinSp ((extractKeyTerms argument).take 3) ++ " study research" := by
    intro he
    have := congrArg (fun s => s.data.count ' ') he
    dsimp only at this
    rw [hc3, hc4] at this
    have hlen4 : ((extractKeyTerms argument).take 4).length ≤ 4 := by
      simp [List.length_take]
    omega
  constructor
  · rw [hq]; rfl
  · have hsub : ({joinSp (((extractKeyTerms argument).take 4).map quoteTerm),
        joinSp ((extractKeyTerms argument).take 4),
        joinSp ((extractKeyTerms argument).take 3) ++ " study research"} :
          Finset String) ⊆ (createSearchQueries argument).toFinset := by
      intro x hx
      rw [hq]
      simp only [Finset.mem_insert, Finset.mem_singleton] at hx
      rcases hx with rfl | rfl | rfl <;> simp
    have hcard : ({joinSp (((extractKeyTerms argument).take 4).map quoteTerm),
        joinSp ((extractKeyTerms argument).take 4),
        joinSp ((extractKeyTerms argument).take 3) ++ " study research"} :
          Finset String).card = 3 := by
      rw [Finset.card_insert_of_not_mem (by
            simp only [Finset.mem_insert, Finset.mem_singleton]
            push_neg
            exact ⟨hd23, hd24⟩),
          Finset.card_insert_of_not_mem (by
            simp only [Finset.mem_singleton]
            exact hd34)]
      rfl
    calc 3 = _ := hcard.symm
      _ ≤ _ := Finset.card_le_card hsub

/-- Witness for C6: the argument `"carbon tax rises"` has three key
terms, so the builder emits it verbatim first among at least three
distinct queries. -/
theorem C6_witness :
    3 ≤ (extractKeyTerms "carbon tax rises").length
    ∧ ((createSearchQueries "carbon tax rises").head? =
        some "carbon tax rises"
       ∧ 3 ≤ (createSearchQueries "carbon tax rises").toFinset.card) :=
  ⟨by decide, C6_query_builder "carbon tax rises" (by decide)⟩

end Snipit
